import Mathlib

/-!
# lua_signal.cpp: the `sigqueue` binding

A shallow embedding of `src/lualib-src/lua_signal.cpp`: the C function `lsigqueue`
and the module opener `luaopen_signal`.

* The two arms of `#ifdef _WIN32` are selected by a `Target` value.
* The Lua C API calls the file makes (`luaL_checkinteger`, `lua_pushboolean`,
  `lua_pushstring`, `luaL_error`, `luaL_checkversion`, `luaL_newlib`) act on an
  explicit stack; what they leave to the host (string and float conversion, the
  position of the caller, the version check) is a field of `Host`.
* The operating system (`sigqueue`, `errno`, `strerror`) is a parameter `Posix σ`
  over an arbitrary system state `σ`.
* Every run reports the list of `sigqueue` calls it performed.
-/

namespace LuaSignal

/-! ## Data model -/

/-- The two arms of the `#ifdef _WIN32` in `lsigqueue`. -/
inductive Target
  | win32
  | posix
  deriving DecidableEq, Repr

/-- The C functions this file defines and registers. -/
inductive CFunction
  | lsigqueue
  deriving DecidableEq, Repr

/-- What `luaL_setfuncs` stores under a name: a C closure, or the placeholder `false`
for an entry whose `func` is null. -/
inductive LibField
  | cfunction (f : CFunction)
  | placeholder
  deriving DecidableEq, Repr

/-- A library table: string keys, in insertion order, each key once. -/
abbrev LibTable := List (String × LibField)

/-- Lua values as the C function sees them on its stack. A float is kept as its bit
pattern, every value that is no number, string, boolean, nil or library table as a
tag. -/
inductive LuaValue
  | nil
  | boolean (b : Bool)
  | integer (n : Int)
  | number (bits : Nat)
  | string (s : String)
  | table (t : LibTable)
  | object (tag : Nat)
  deriving DecidableEq, Repr

/-- What a raised Lua error carries: the message built by `luaL_error`, or the number
of the argument `luaL_argerror` complains about. -/
inductive LuaError
  | message (text : String)
  | argument (arg : Nat)
  deriving DecidableEq, Repr

/-- How a C function ends: it returns its results, or it raises. -/
inductive Outcome
  | returned (values : List LuaValue)
  | raised (err : LuaError)
  deriving DecidableEq, Repr

/-- The parts of the Lua host that the file relies on but does not define (`lua.hpp` is
not part of the file). -/
structure Host where
  /-- `luaV_flttointns` in exact mode: the integer a float equals, if any. -/
  flttoint : Nat → Option Int
  /-- `cvt2num` followed by the integer conversion: the integer a string denotes, if any. -/
  strtoint : String → Option Int
  /-- `luaL_where(L, 1)`: the position of the caller, put in front of `luaL_error` messages. -/
  position : String
  /-- `luaL_checkversion`: the message it raises, `none` when core and library agree. -/
  versionFault : Option String

/-- The operating system and C library as seen from `lsigqueue` (`signal.h`, `errno.h`,
`string.h`), over a system state `σ`. -/
structure Posix (σ : Type) where
  /-- `sigqueue(pid, sig, value)`: the return value and the state after the call. -/
  sigqueue : σ → Int → Int → Int → Int × σ
  /-- The calling thread's `errno` in a state. -/
  errno : σ → Int
  /-- `strerror`. -/
  strerror : Int → String

/-- One `sigqueue` call as performed: the arguments handed to the OS, and its response
(return value and the `errno` in force right after). -/
structure SigCall where
  pid : Int
  sig : Int
  sival_int : Int
  ret : Int
  errno : Int
  deriving DecidableEq, Repr

/-- A run of a C function: how it ended, the `sigqueue` calls it performed, and the
system state it left. -/
structure Run (σ : Type) where
  outcome : Outcome
  calls : List SigCall
  sys : σ

/-! ## Machine integers -/

/-- Modelled from the spec: the width of the platform's `int` (the type of the `sig`
parameter and of `sigval.sival_int`), declared in system headers that are not under
src; 32 bits, as on every target the posix arm compiles for. -/
def INT_BITS : Nat := 32

/-- Modelled from the spec: the width of the platform's `pid_t`, declared in system
headers that are not under src; 32 bits, as on every target the posix arm compiles
for. -/
def PID_T_BITS : Nat := 32

/-- Width of `lua_Integer`. -/
def LUA_INTEGER_BITS : Nat := 64

/-- Conversion of an integer to a signed type of `bits` bits: the value congruent
modulo `2^bits` that lies in `[-2^(bits-1), 2^(bits-1))`. -/
def narrow (bits : Nat) (x : Int) : Int :=
  (x + 2 ^ (bits - 1)) % 2 ^ bits - 2 ^ (bits - 1)

/-- Range of a signed type of `bits` bits. -/
def inRange (bits : Nat) (x : Int) : Prop :=
  -(2 ^ (bits - 1)) ≤ x ∧ x < 2 ^ (bits - 1)

instance (bits : Nat) (x : Int) : Decidable (inRange bits x) := by
  unfold inRange; infer_instance

/-! ## The Lua C API calls used by the file -/

/-- Stack slot `idx` (1-based) of the running C function, `none` above the top. -/
def lua_index (stack : List LuaValue) (idx : Nat) : Option LuaValue :=
  if idx = 0 then none else stack.get? (idx - 1)

/-- `lua_tointegerx`: the integer a stack slot converts to, `none` when `isnum` is 0. -/
def lua_tointegerx (H : Host) (stack : List LuaValue) (idx : Nat) : Option Int :=
  match lua_index stack idx with
  | some (.integer n) => some n
  | some (.number bits) => H.flttoint bits
  | some (.string s) => H.strtoint s
  | _ => none

/-- `luaL_checkinteger(L, arg)`: the converted integer, or an argument error for `arg`. -/
def luaL_checkinteger (H : Host) (stack : List LuaValue) (arg : Nat) : Except LuaError Int :=
  match lua_tointegerx H stack arg with
  | some d => .ok d
  | none => .error (.argument arg)

/-- `lua_pushboolean(L, b)`. -/
def lua_pushboolean (stack : List LuaValue) (b : Bool) : List LuaValue :=
  stack ++ [.boolean b]

/-- `lua_pushstring(L, s)`. -/
def lua_pushstring (stack : List LuaValue) (s : String) : List LuaValue :=
  stack ++ [.string s]

/-- `return n` from a C function: the results are the top `n` stack slots. -/
def lua_results (stack : List LuaValue) (n : Nat) : List LuaValue :=
  stack.drop (stack.length - n)

/-- `luaL_error(L, msg)` with a format without directives: raises the position of the
caller followed by `msg`. -/
def luaL_error (H : Host) (msg : String) : LuaError :=
  .message (H.position ++ msg)

/-- `luaL_checkversion(L)`. -/
def luaL_checkversion (H : Host) : Except LuaError Unit :=
  match H.versionFault with
  | none => .ok ()
  | some msg => .error (luaL_error H msg)

/-! ## lsigqueue -/

/-- The C function `lsigqueue`. -/
def lsigqueue {σ : Type} (T : Target) (H : Host) (K : Posix σ) (s : σ)
    (args : List LuaValue) : Run σ :=
  match T with
  | .win32 => ⟨.raised (luaL_error H "signal sending not supported on Windows"), [], s⟩
  | .posix =>
    match luaL_checkinteger H args 1 with
    | .error e => ⟨.raised e, [], s⟩
    | .ok pid =>
      match luaL_checkinteger H args 2 with
      | .error e => ⟨.raised e, [], s⟩
      | .ok sigrt =>
        match luaL_checkinteger H args 3 with
        | .error e => ⟨.raised e, [], s⟩
        | .ok sival =>
          let sival_int := narrow INT_BITS sival
          let pid_arg := narrow PID_T_BITS pid
          let sig_arg := narrow INT_BITS sigrt
          let r := K.sigqueue s pid_arg sig_arg sival_int
          let call : SigCall := ⟨pid_arg, sig_arg, sival_int, r.1, K.errno r.2⟩
          if r.1 = -1 then
            let st := lua_pushboolean args false
            let st := lua_pushstring st (K.strerror (K.errno r.2))
            ⟨.returned (lua_results st 2), [call], r.2⟩
          else
            let st := lua_pushboolean args true
            ⟨.returned (lua_results st 1), [call], r.2⟩

/-- One `luaL_Reg` array element; `none` is a null pointer. -/
structure luaL_Reg where
  name : Option String
  func : Option CFunction
  deriving DecidableEq, Repr

/-- The array `l` of `luaopen_signal`. -/
def luaopen_signal_l : List luaL_Reg :=
  [⟨some "sigqueue", some .lsigqueue⟩, ⟨none, none⟩]

/-- `lua_setfield` on a library table: replaces the value of an existing key, appends a
new one. -/
def lua_setfield (t : LibTable) (k : String) (v : LibField) : LibTable :=
  if t.any (fun kv => kv.1 == k) then t.map (fun kv => if kv.1 == k then (k, v) else kv)
  else t ++ [(k, v)]

/-- `lua_getfield` on a library table. -/
def lua_getfield (t : LibTable) (k : String) : Option LibField :=
  (t.find? (fun kv => kv.1 == k)).map (fun kv => kv.2)

/-- `luaL_setfuncs(L, l, 0)`: registers the entries up to the first null name. -/
def luaL_setfuncs (t : LibTable) : List luaL_Reg → LibTable
  | [] => t
  | r :: rest =>
    match r.name with
    | none => t
    | some nm =>
      match r.func with
      | none => luaL_setfuncs (lua_setfield t nm .placeholder) rest
      | some f => luaL_setfuncs (lua_setfield t nm (.cfunction f)) rest

/-- `luaL_newlib(L, l)`: version check, fresh table, `luaL_setfuncs`; pushes the table. -/
def luaL_newlib (H : Host) (stack : List LuaValue) (l : List luaL_Reg) :
    Except LuaError (List LuaValue) :=
  match luaL_checkversion H with
  | .error e => .error e
  | .ok _ => .ok (stack ++ [.table (luaL_setfuncs [] l)])

/-- The module opener `luaopen_signal`. -/
def luaopen_signal (H : Host) (args : List LuaValue) : Outcome :=
  match luaL_checkversion H with
  | .error e => .raised e
  | .ok _ =>
    match luaL_newlib H args luaopen_signal_l with
    | .error e => .raised e
    | .ok st => .returned (lua_results st 1)

/-! ## A small system used to run the embedding on concrete inputs -/

/-- State of the sample system: the live process ids and the current `errno`. -/
structure DemoSys where
  live : List Int
  errno : Int
  deriving DecidableEq, Repr

/-- First realtime signal number of the sample system. -/
def DEMO_SIGRTMIN : Int := 34

/-- Last realtime signal number of the sample system. -/
def DEMO_SIGRTMAX : Int := 64

/-- Highest signal number of the sample system; it accepts the numbers 0 to 64, the
standard signals and the null signal 0 included. -/
def DEMO_NSIG : Int := 64

/-- A sample system: `sigqueue` fails with `ESRCH` (3) for a pid that is not live, with
`EINVAL` (22) for a signal number outside 0 to `DEMO_NSIG`, and succeeds otherwise. -/
def demoPosix : Posix DemoSys where
  sigqueue := fun s pid sig _ =>
    if pid ∉ s.live then (-1, ⟨s.live, 3⟩)
    else if sig < 0 ∨ DEMO_NSIG < sig then (-1, ⟨s.live, 22⟩)
    else (0, s)
  errno := fun s => s.errno
  strerror := fun e =>
    if e = 22 then "Invalid argument"
    else if e = 3 then "No such process"
    else "Unknown error"

/-- A sample host: no float or string converts, calls come from `main.lua:1:`, and the
version check passes. -/
def demoHost : Host := ⟨fun _ => none, fun _ => none, "main.lua:1: ", none⟩

/-- A sample host whose version check fails. -/
def staleHost : Host := ⟨fun _ => none, fun _ => none, "", some "version mismatch"⟩

/-- Initial state of the sample system: process 100 is live, `errno` is 0. -/
def demoSys : DemoSys := ⟨[100], 0⟩

/-! ## Basic facts -/

theorem narrow_int_eq (x : Int) :
    narrow INT_BITS x = (x + 2147483648) % 4294967296 - 2147483648 := by
  simp [narrow, INT_BITS]

theorem narrow_pid_eq (x : Int) :
    narrow PID_T_BITS x = (x + 2147483648) % 4294967296 - 2147483648 := by
  simp [narrow, PID_T_BITS]

theorem inRange_int_iff (x : Int) :
    inRange INT_BITS x ↔ -2147483648 ≤ x ∧ x < 2147483648 := by
  simp [inRange, INT_BITS]

theorem inRange_pid_iff (x : Int) :
    inRange PID_T_BITS x ↔ -2147483648 ≤ x ∧ x < 2147483648 := by
  simp [inRange, PID_T_BITS]

theorem narrow_int_inRange (x : Int) : inRange INT_BITS (narrow INT_BITS x) := by
  rw [inRange_int_iff, narrow_int_eq]; omega

theorem narrow_pid_inRange (x : Int) : inRange PID_T_BITS (narrow PID_T_BITS x) := by
  rw [inRange_pid_iff, narrow_pid_eq]; omega

theorem narrow_int_eq_self_iff (x : Int) : narrow INT_BITS x = x ↔ inRange INT_BITS x := by
  rw [inRange_int_iff, narrow_int_eq]; omega

theorem narrow_int_shift (x k : Int) :
    narrow INT_BITS (x + k * 2 ^ 32) = narrow INT_BITS x := by
  rw [narrow_int_eq, narrow_int_eq]; omega

theorem narrow_pid_shift (x k : Int) :
    narrow PID_T_BITS (x + k * 2 ^ 32) = narrow PID_T_BITS x := by
  rw [narrow_pid_eq, narrow_pid_eq]; omega

theorem lua_results_append (xs ys : List LuaValue) :
    lua_results (xs ++ ys) ys.length = ys := by
  simp [lua_results]

/-- The posix arm once the three checks have passed. -/
theorem lsigqueue_checked {σ : Type} (H : Host) (K : Posix σ) (s : σ) (args : List LuaValue)
    (pid sigrt sival : Int)
    (h1 : lua_tointegerx H args 1 = some pid)
    (h2 : lua_tointegerx H args 2 = some sigrt)
    (h3 : lua_tointegerx H args 3 = some sival) :
    lsigqueue .posix H K s args =
      ⟨if (K.sigqueue s (narrow PID_T_BITS pid) (narrow INT_BITS sigrt)
            (narrow INT_BITS sival)).1 = -1
        then .returned [.boolean false, .string (K.strerror (K.errno
          (K.sigqueue s (narrow PID_T_BITS pid) (narrow INT_BITS sigrt)
            (narrow INT_BITS sival)).2))]
        else .returned [.boolean true],
       [⟨narrow PID_T_BITS pid, narrow INT_BITS sigrt, narrow INT_BITS sival,
         (K.sigqueue s (narrow PID_T_BITS pid) (narrow INT_BITS sigrt)
            (narrow INT_BITS sival)).1,
         K.errno (K.sigqueue s (narrow PID_T_BITS pid) (narrow INT_BITS sigrt)
            (narrow INT_BITS sival)).2⟩],
       (K.sigqueue s (narrow PID_T_BITS pid) (narrow INT_BITS sigrt)
            (narrow INT_BITS sival)).2⟩ := by
  have e2 : lua_results (args ++ [LuaValue.boolean false, LuaValue.string (K.strerror (K.errno
      (K.sigqueue s (narrow PID_T_BITS pid) (narrow INT_BITS sigrt)
        (narrow INT_BITS sival)).2))]) 2 = _ := lua_results_append args _
  have e1 : lua_results (args ++ [LuaValue.boolean true]) 1 = _ := lua_results_append args _
  simp only [lsigqueue, luaL_checkinteger, h1, h2, h3, lua_pushboolean, lua_pushstring,
    List.append_assoc, List.singleton_append, e1, e2]
  split <;> rfl

/-- The posix arm on three integers. -/
theorem lsigqueue_integers {σ : Type} (H : Host) (K : Posix σ) (s : σ)
    (pid sigrt sival : Int) :
    lsigqueue .posix H K s [.integer pid, .integer sigrt, .integer sival] =
      ⟨if (K.sigqueue s (narrow PID_T_BITS pid) (narrow INT_BITS sigrt)
            (narrow INT_BITS sival)).1 = -1
        then .returned [.boolean false, .string (K.strerror (K.errno
          (K.sigqueue s (narrow PID_T_BITS pid) (narrow INT_BITS sigrt)
            (narrow INT_BITS sival)).2))]
        else .returned [.boolean true],
       [⟨narrow PID_T_BITS pid, narrow INT_BITS sigrt, narrow INT_BITS sival,
         (K.sigqueue s (narrow PID_T_BITS pid) (narrow INT_BITS sigrt)
            (narrow INT_BITS sival)).1,
         K.errno (K.sigqueue s (narrow PID_T_BITS pid) (narrow INT_BITS sigrt)
            (narrow INT_BITS sival)).2⟩],
       (K.sigqueue s (narrow PID_T_BITS pid) (narrow INT_BITS sigrt)
            (narrow INT_BITS sival)).2⟩ :=
  lsigqueue_checked H K s _ pid sigrt sival rfl rfl rfl

theorem demoPosix_strerror_ne (e : Int) : demoPosix.strerror e ≠ "" := by
  simp only [demoPosix]
  split_ifs <;> decide

theorem demoPosix_rejects (st : DemoSys) (p sg v : Int)
    (h : ¬ (0 ≤ sg ∧ sg ≤ DEMO_NSIG)) :
    (demoPosix.sigqueue st p sg v).1 = -1 := by
  have h2 : sg < 0 ∨ DEMO_NSIG < sg := by
    by_contra hc
    exact h ⟨by omega, by omega⟩
  simp only [demoPosix]
  split_ifs <;> rfl

theorem demo_success : (lsigqueue .posix demoHost demoPosix demoSys
    [.integer 100, .integer 34, .integer 42]).outcome = .returned [.boolean true] := by
  decide

theorem demo_no_such_process : (lsigqueue .posix demoHost demoPosix demoSys
    [.integer 7, .integer 34, .integer 42]).outcome
    = .returned [.boolean false, .string "No such process"] := by
  decide

theorem demo_open : luaopen_signal demoHost [.string "signal", .string "./signal.so"]
    = .returned [.table [("sigqueue", .cfunction .lsigqueue)]] := by
  decide

/-! ## The result convention (C1, C2) -/

/-- C1. On the posix target, a call with three integer arguments never raises, and its
result has one of two shapes decided by the return value `r` of the `sigqueue` call it
makes: for `r = -1` exactly the two values `false` and a string, for every other `r`
exactly the one value `true`. -/
theorem lsigqueue_result_shape {σ : Type} (H : Host) (K : Posix σ) (s : σ)
    (pid sigrt sival : Int) :
    (lsigqueue .posix H K s [.integer pid, .integer sigrt, .integer sival]).outcome =
      if (K.sigqueue s (narrow PID_T_BITS pid) (narrow INT_BITS sigrt)
            (narrow INT_BITS sival)).1 = -1
      then .returned [.boolean false, .string (K.strerror (K.errno
          (K.sigqueue s (narrow PID_T_BITS pid) (narrow INT_BITS sigrt)
            (narrow INT_BITS sival)).2))]
      else .returned [.boolean true] := by
  rw [lsigqueue_integers]

/-- C2. On the posix target, when the `sigqueue` call of a three-integer invocation
returns -1, the invocation returns `false` and, as second value, `strerror` of the
`errno` that is in force right after that `sigqueue` call; on a C library whose
`strerror` never yields the empty string the description is non-empty. -/
theorem lsigqueue_failure_description {σ : Type} (H : Host) (K : Posix σ) (s : σ)
    (pid sigrt sival : Int)
    (hfail : (K.sigqueue s (narrow PID_T_BITS pid) (narrow INT_BITS sigrt)
      (narrow INT_BITS sival)).1 = -1)
    (hlibc : ∀ e, K.strerror e ≠ "") :
    ∃ description : String,
      (lsigqueue .posix H K s [.integer pid, .integer sigrt, .integer sival]).outcome
        = .returned [.boolean false, .string description] ∧
      description = K.strerror (K.errno (K.sigqueue s (narrow PID_T_BITS pid)
        (narrow INT_BITS sigrt) (narrow INT_BITS sival)).2) ∧
      description ≠ "" := by
  refine ⟨_, ?_, rfl, hlibc _⟩
  rw [lsigqueue_integers]
  simp only [hfail, if_true]

/-- C2 on the sample system: process 7 does not exist. -/
theorem lsigqueue_failure_description_witness :
    ∃ description : String,
      (lsigqueue .posix demoHost demoPosix demoSys
        [.integer 7, .integer 34, .integer 42]).outcome
        = .returned [.boolean false, .string description] ∧
      description = demoPosix.strerror (demoPosix.errno (demoPosix.sigqueue demoSys
        (narrow PID_T_BITS 7) (narrow INT_BITS 34) (narrow INT_BITS 42)).2) ∧
      description ≠ "" :=
  lsigqueue_failure_description demoHost demoPosix demoSys 7 34 42 (by decide)
    demoPosix_strerror_ne

/-! ## The unsupported platform (C3) -/

/-- C3. On the win32 target, for every argument list, `lsigqueue` raises the error that
`luaL_error` builds from the fixed text "signal sending not supported on Windows"; it
returns no values (neither `true` nor `false` with a message), performs no `sigqueue`
call and leaves the system state as it was. The error is the same for any two argument
lists. -/
theorem lsigqueue_win32_unsupported {σ : Type} (H : Host) (K : Posix σ) (s : σ)
    (args : List LuaValue) :
    (lsigqueue .win32 H K s args).outcome
        = .raised (.message (H.position ++ "signal sending not supported on Windows")) ∧
      (∀ values, (lsigqueue .win32 H K s args).outcome ≠ .returned values) ∧
      (lsigqueue .win32 H K s args).calls = [] ∧
      (lsigqueue .win32 H K s args).sys = s ∧
      (∀ other : List LuaValue,
        (lsigqueue .win32 H K s other).outcome = (lsigqueue .win32 H K s args).outcome) := by
  refine ⟨rfl, ?_, rfl, rfl, fun _ => rfl⟩
  intro values h
  simp [lsigqueue] at h

/-! ## One system call per invocation (C4) -/

/-- C4. On the posix target, every triple of integers leads to exactly one `sigqueue`
call, whatever the values are and whether that call succeeds or fails; the call is
made on the state the invocation started in, with the three narrowed arguments. -/
theorem lsigqueue_single_call {σ : Type} (H : Host) (K : Posix σ) (s : σ)
    (pid sigrt sival : Int) :
    (lsigqueue .posix H K s [.integer pid, .integer sigrt, .integer sival]).calls.length = 1 ∧
      (lsigqueue .posix H K s [.integer pid, .integer sigrt, .integer sival]).calls.map
          (fun c => (c.pid, c.sig, c.sival_int))
        = [(narrow PID_T_BITS pid, narrow INT_BITS sigrt, narrow INT_BITS sival)] ∧
      (lsigqueue .posix H K s [.integer pid, .integer sigrt, .integer sival]).sys
        = (K.sigqueue s (narrow PID_T_BITS pid) (narrow INT_BITS sigrt)
            (narrow INT_BITS sival)).2 := by
  rw [lsigqueue_integers]
  exact ⟨rfl, rfl, rfl⟩

/-! ## The payload (C5) -/

/-- C5, as stated, fails: the payload 4294967338 is a 64-bit integer, and the integer
attached to the queued signal is 42. -/
theorem lsigqueue_payload_not_verbatim :
    inRange LUA_INTEGER_BITS 4294967338 ∧
      (lsigqueue .posix demoHost demoPosix demoSys
        [.integer 100, .integer 34, .integer 4294967338]).calls.map SigCall.sival_int = [42] ∧
      (lsigqueue .posix demoHost demoPosix demoSys
        [.integer 100, .integer 34, .integer 4294967338]).calls.map SigCall.sival_int
        ≠ [4294967338] := by
  decide

/-- C5, amended. The integer attached to the queued signal is the payload narrowed to
the 32-bit `int` of `sival_int`; it equals the payload exactly when the payload lies in
the range of `int`. -/
theorem lsigqueue_payload_narrowed {σ : Type} (H : Host) (K : Posix σ) (s : σ)
    (pid sigrt sival : Int) :
    (lsigqueue .posix H K s [.integer pid, .integer sigrt, .integer sival]).calls.map
        SigCall.sival_int = [narrow INT_BITS sival] ∧
      (narrow INT_BITS sival = sival ↔ inRange INT_BITS sival) := by
  rw [lsigqueue_integers]
  exact ⟨rfl, narrow_int_eq_self_iff sival⟩

/-! ## Signal numbers the OS rejects (C6) -/

/-- C6, as stated, fails. On the sample system the realtime range is 34 to 64. The
signal number 10 is outside it, and so is 4294967330, which narrows to 34; both are
64-bit integers, and both calls return `true`. -/
theorem lsigqueue_out_of_range_signal_accepted :
    (¬ (DEMO_SIGRTMIN ≤ 10 ∧ (10 : Int) ≤ DEMO_SIGRTMAX) ∧
        inRange LUA_INTEGER_BITS 10 ∧
        (lsigqueue .posix demoHost demoPosix demoSys
          [.integer 100, .integer 10, .integer 42]).outcome
          = .returned [.boolean true]) ∧
      (¬ (DEMO_SIGRTMIN ≤ 4294967330 ∧ (4294967330 : Int) ≤ DEMO_SIGRTMAX) ∧
        inRange LUA_INTEGER_BITS 4294967330 ∧
        (lsigqueue .posix demoHost demoPosix demoSys
          [.integer 100, .integer 4294967330, .integer 42]).outcome
          = .returned [.boolean true]) := by
  decide

/-- C6, amended. `lsigqueue` checks no range itself: it hands the signal number,
narrowed to the 32-bit `int` parameter, to `sigqueue` in one call. On a system whose
`sigqueue` returns -1 for every signal number outside the set `valid` of the numbers it
accepts, a call whose narrowed signal number is outside `valid` returns exactly the two
values `false` and `strerror` of the `errno` in force right after that `sigqueue` call,
and never `true`; the description is non-empty when the C library's `strerror` never
yields the empty string. -/
theorem lsigqueue_rejected_signal {σ : Type} (H : Host) (K : Posix σ) (valid : Int → Prop)
    (hos : ∀ (st : σ) (p sg v : Int), ¬ valid sg → (K.sigqueue st p sg v).1 = -1)
    (hlibc : ∀ e, K.strerror e ≠ "")
    (s : σ) (pid sigrt sival : Int)
    (hsig : ¬ valid (narrow INT_BITS sigrt)) :
    (lsigqueue .posix H K s [.integer pid, .integer sigrt, .integer sival]).calls.map
        (fun c => (c.pid, c.sig, c.sival_int))
        = [(narrow PID_T_BITS pid, narrow INT_BITS sigrt, narrow INT_BITS sival)] ∧
      (lsigqueue .posix H K s [.integer pid, .integer sigrt, .integer sival]).outcome
        = .returned [.boolean false, .string (K.strerror (K.errno
            (K.sigqueue s (narrow PID_T_BITS pid) (narrow INT_BITS sigrt)
              (narrow INT_BITS sival)).2))] ∧
      K.strerror (K.errno (K.sigqueue s (narrow PID_T_BITS pid) (narrow INT_BITS sigrt)
        (narrow INT_BITS sival)).2) ≠ "" ∧
      (lsigqueue .posix H K s [.integer pid, .integer sigrt, .integer sival]).outcome
        ≠ .returned [.boolean true] := by
  have hfail := hos s (narrow PID_T_BITS pid) (narrow INT_BITS sigrt) (narrow INT_BITS sival) hsig
  rw [lsigqueue_integers]
  refine ⟨rfl, ?_, hlibc _, ?_⟩
  · simp only [hfail, if_true]
  · simp only [hfail, if_true]
    simp

/-- C6, amended, on the sample system, which accepts the signal numbers 0 to 64:
4294967396 narrows to the signal number 100. -/
theorem lsigqueue_rejected_signal_witness :
    (lsigqueue .posix demoHost demoPosix demoSys
        [.integer 100, .integer 4294967396, .integer 42]).calls.map
        (fun c => (c.pid, c.sig, c.sival_int))
        = [(narrow PID_T_BITS 100, narrow INT_BITS 4294967396, narrow INT_BITS 42)] ∧
      (lsigqueue .posix demoHost demoPosix demoSys
        [.integer 100, .integer 4294967396, .integer 42]).outcome
        = .returned [.boolean false, .string (demoPosix.strerror (demoPosix.errno
            (demoPosix.sigqueue demoSys (narrow PID_T_BITS 100) (narrow INT_BITS 4294967396)
              (narrow INT_BITS 42)).2))] ∧
      demoPosix.strerror (demoPosix.errno (demoPosix.sigqueue demoSys (narrow PID_T_BITS 100)
        (narrow INT_BITS 4294967396) (narrow INT_BITS 42)).2) ≠ "" ∧
      (lsigqueue .posix demoHost demoPosix demoSys
        [.integer 100, .integer 4294967396, .integer 42]).outcome
        ≠ .returned [.boolean true] :=
  lsigqueue_rejected_signal demoHost demoPosix
    (fun sg => 0 ≤ sg ∧ sg ≤ DEMO_NSIG) demoPosix_rejects
    demoPosix_strerror_ne demoSys 100 4294967396 42 (by decide)

/-! ## Statelessness (C7) -/

/-- C8, as stated, fails: on a host whose version check fails, opening the module
raises and returns no table. -/
theorem luaopen_signal_version_fault :
    luaopen_signal staleHost [.string "signal", .string "./signal.so"]
        = .raised (.message "version mismatch") ∧
      ∀ values, luaopen_signal staleHost [.string "signal", .string "./signal.so"]
        ≠ .returned values := by
  refine ⟨by decide, ?_⟩
  intro values h
  have h0 : luaopen_signal staleHost [.string "signal", .string "./signal.so"]
      = .raised (.message "version mismatch") := by decide
  rw [h0] at h
  exact Outcome.noConfusion h

/-- C8, amended. When the version check of the host passes, `luaopen_signal` returns
exactly one value, a table with the single key "sigqueue", which maps to `lsigqueue`;
every other name is absent. When the check fails, `luaopen_signal` raises the error of
the check. -/
theorem luaopen_signal_registration (H : Host) (args : List LuaValue) :
    luaopen_signal H args =
        (match H.versionFault with
          | none => .returned [.table (luaL_setfuncs [] luaopen_signal_l)]
          | some msg => .raised (luaL_error H msg)) ∧
      (luaL_setfuncs [] luaopen_signal_l).map Prod.fst = ["sigqueue"] ∧
      lua_getfield (luaL_setfuncs [] luaopen_signal_l) "sigqueue"
        = some (.cfunction .lsigqueue) ∧
      ∀ name : String, name ≠ "sigqueue" →
        lua_getfield (luaL_setfuncs [] luaopen_signal_l) name = none := by
  have ht : luaL_setfuncs [] luaopen_signal_l = [("sigqueue", .cfunction .lsigqueue)] := by
    decide
  refine ⟨?_, ?_, ?_, ?_⟩
  · have e1 : lua_results (args ++ [LuaValue.table (luaL_setfuncs [] luaopen_signal_l)]) 1 = _ :=
      lua_results_append args _
    cases hv : H.versionFault with
    | none => simp [luaopen_signal, luaL_newlib, luaL_checkversion, hv, e1]
    | some msg => simp [luaopen_signal, luaL_checkversion, hv]
  · rw [ht]; rfl
  · rw [ht]; decide
  · intro name hname
    rw [ht]
    have : ¬ ("sigqueue" = name) := fun h => hname h.symm
    simp [lua_getfield, this]

/-! ## Narrowing of pid and signal number (C9) -/

/-- C9. The pid and the signal number are narrowed to 32 bits before the OS call: each
of the calls `(p + k*2^32, s, v)`, `(p, s + k*2^32, v)` and `(p, s, v)` is not rejected
but makes exactly one `sigqueue` call, with the same arguments `(narrow p, narrow s,
narrow v)`; the pid and signal number handed over lie in the 32-bit range; and the
three runs (result, call with its response, resulting state) are equal. -/
theorem lsigqueue_narrowing_alias {σ : Type} (H : Host) (K : Posix σ) (s : σ)
    (p sg v k : Int) :
    (lsigqueue .posix H K s [.integer (p + k * 2 ^ 32), .integer sg, .integer v]).calls.map
        (fun c => (c.pid, c.sig, c.sival_int))
        = [(narrow PID_T_BITS p, narrow INT_BITS sg, narrow INT_BITS v)] ∧
      (lsigqueue .posix H K s [.integer p, .integer (sg + k * 2 ^ 32), .integer v]).calls.map
        (fun c => (c.pid, c.sig, c.sival_int))
        = [(narrow PID_T_BITS p, narrow INT_BITS sg, narrow INT_BITS v)] ∧
      (lsigqueue .posix H K s [.integer p, .integer sg, .integer v]).calls.map
        (fun c => (c.pid, c.sig, c.sival_int))
        = [(narrow PID_T_BITS p, narrow INT_BITS sg, narrow INT_BITS v)] ∧
      inRange PID_T_BITS (narrow PID_T_BITS p) ∧ inRange INT_BITS (narrow INT_BITS sg) ∧
      lsigqueue .posix H K s [.integer (p + k * 2 ^ 32), .integer sg, .integer v]
        = lsigqueue .posix H K s [.integer p, .integer sg, .integer v] ∧
      lsigqueue .posix H K s [.integer p, .integer (sg + k * 2 ^ 32), .integer v]
        = lsigqueue .posix H K s [.integer p, .integer sg, .integer v] ∧
      (lsigqueue .posix H K s [.integer p, .integer sg, .integer v]).outcome
        = (if (K.sigqueue s (narrow PID_T_BITS p) (narrow INT_BITS sg)
              (narrow INT_BITS v)).1 = -1
          then .returned [.boolean false, .string (K.strerror (K.errno
            (K.sigqueue s (narrow PID_T_BITS p) (narrow INT_BITS sg)
              (narrow INT_BITS v)).2))]
          else .returned [.boolean true]) ∧
      ∀ c ∈ (lsigqueue .posix H K s [.integer p, .integer sg, .integer v]).calls,
        c.pid = narrow PID_T_BITS p ∧ c.sig = narrow INT_BITS sg ∧
        inRange PID_T_BITS c.pid ∧ inRange INT_BITS c.sig := by
  have e1 : lsigqueue .posix H K s [.integer (p + k * 2 ^ 32), .integer sg, .integer v]
      = lsigqueue .posix H K s [.integer p, .integer sg, .integer v] := by
    rw [lsigqueue_integers, lsigqueue_integers, narrow_pid_shift]
  have e2 : lsigqueue .posix H K s [.integer p, .integer (sg + k * 2 ^ 32), .integer v]
      = lsigqueue .posix H K s [.integer p, .integer sg, .integer v] := by
    rw [lsigqueue_integers, lsigqueue_integers, narrow_int_shift]
  rw [e1, e2]
  refine ⟨?_, ?_, ?_, narrow_pid_inRange p, narrow_int_inRange sg, rfl, rfl, ?_, ?_⟩
  · rw [lsigqueue_integers]; rfl
  · rw [lsigqueue_integers]; rfl
  · rw [lsigqueue_integers]; rfl
  · rw [lsigqueue_integers]
  · rw [lsigqueue_integers]
    intro c hc
    simp only [List.mem_singleton] at hc
    subst hc
    exact ⟨rfl, rfl, narrow_pid_inRange p, narrow_int_inRange sg⟩

/-! ## Argument checking (C10) -/

theorem lua_tointegerx_first_three (H : Host) (a b c : LuaValue) (rest : List LuaValue) :
    lua_tointegerx H (a :: b :: c :: rest) 1 = lua_tointegerx H [a, b, c] 1 ∧
      lua_tointegerx H (a :: b :: c :: rest) 2 = lua_tointegerx H [a, b, c] 2 ∧
      lua_tointegerx H (a :: b :: c :: rest) 3 = lua_tointegerx H [a, b, c] 3 := by
  simp [lua_tointegerx, lua_index]

/-- C10. On the posix target, let `i` be the lowest of the argument numbers 1, 2, 3
whose argument is missing or does not convert to an integer. Then `lsigqueue` raises
the argument error for `i`, returns nothing, makes no `sigqueue` call and leaves the
system state as it was. Arguments after the third never change the run. -/
theorem lsigqueue_argument_check {σ : Type} (H : Host) (K : Posix σ) (s : σ)
    (args : List LuaValue) (i : Nat) (hi : 1 ≤ i ∧ i ≤ 3)
    (hbad : lua_tointegerx H args i = none)
    (hlow : ∀ j, 1 ≤ j → j < i → lua_tointegerx H args j ≠ none) :
    ((lsigqueue .posix H K s args).outcome = .raised (.argument i) ∧
        (lsigqueue .posix H K s args).calls = [] ∧
        (lsigqueue .posix H K s args).sys = s) ∧
      ∀ (a b c : LuaValue) (rest : List LuaValue),
        lsigqueue .posix H K s (a :: b :: c :: rest) = lsigqueue .posix H K s [a, b, c] := by
  constructor
  · obtain ⟨h1, h3⟩ := hi
    interval_cases i
    · simp [lsigqueue, luaL_checkinteger, hbad]
    · obtain ⟨x, hx⟩ := Option.ne_none_iff_exists'.mp (hlow 1 (by omega) (by omega))
      simp [lsigqueue, luaL_checkinteger, hbad, hx]
    · obtain ⟨x, hx⟩ := Option.ne_none_iff_exists'.mp (hlow 1 (by omega) (by omega))
      obtain ⟨y, hy⟩ := Option.ne_none_iff_exists'.mp (hlow 2 (by omega) (by omega))
      simp [lsigqueue, luaL_checkinteger, hbad, hx, hy]
  · intro a b c rest
    obtain ⟨q1, q2, q3⟩ := lua_tointegerx_first_three H a b c rest
    rcases e1 : lua_tointegerx H [a, b, c] 1 with _ | x
    · simp [lsigqueue, luaL_checkinteger, e1, q1]
    rcases e2 : lua_tointegerx H [a, b, c] 2 with _ | y
    · simp [lsigqueue, luaL_checkinteger, e1, q1, e2, q2]
    rcases e3 : lua_tointegerx H [a, b, c] 3 with _ | z
    · simp [lsigqueue, luaL_checkinteger, e1, q1, e2, q2, e3, q3]
    rw [lsigqueue_checked H K s [a, b, c] x y z e1 e2 e3,
      lsigqueue_checked H K s (a :: b :: c :: rest) x y z (q1.trans e1) (q2.trans e2)
        (q3.trans e3)]

/-- C10 on the sample system: argument 2 is a string that does not convert, argument 3
is missing. -/
theorem lsigqueue_argument_check_witness :
    ((lsigqueue .posix demoHost demoPosix demoSys
          [.integer 100, .string "x"]).outcome = .raised (.argument 2) ∧
        (lsigqueue .posix demoHost demoPosix demoSys [.integer 100, .string "x"]).calls = [] ∧
        (lsigqueue .posix demoHost demoPosix demoSys [.integer 100, .string "x"]).sys
          = demoSys) ∧
      ∀ (a b c : LuaValue) (rest : List LuaValue),
        lsigqueue .posix demoHost demoPosix demoSys (a :: b :: c :: rest)
          = lsigqueue .posix demoHost demoPosix demoSys [a, b, c] :=
  lsigqueue_argument_check demoHost demoPosix demoSys [.integer 100, .string "x"] 2
    (by decide) (by decide) (by
      intro j hj1 hj2
      have hj : j = 1 := by omega
      subst hj
      decide)

end LuaSignal
